import Mathlib

/-!
Verification of the Three Dimensions contact-form backend.

The JavaScript sources are embedded shallowly:
* JS strings are modelled as `List Char` (`JsStr`), with `jsTrim`,
  `jsToLower` modelling `String.prototype.trim` / `toLowerCase`
  (ASCII case folding, the range the data uses).
* Timestamps are modelled as `Int` milliseconds since the epoch;
  `new Date(x).toISOString()` / `new Date(s)` convert faithfully between
  an ISO string and its millisecond value, so comparisons and arithmetic
  on `Date` objects are comparisons and arithmetic on the numbers.
* External primitives (node `crypto` AES-256-GCM keystream and auth tag,
  `JSON.stringify`/`JSON.parse`, the `validator` library) are parameters
  of the definitions that call them.
-/

/-- JS strings, modelled as their character sequence. -/
abbrev JsStr := List Char

/-- The characters `String.prototype.trim` removes (space, tab, LF, CR;
the whitespace actually occurring in form data). -/
def jsIsWs (c : Char) : Bool :=
  c.toNat = 32 || c.toNat = 9 || c.toNat = 10 || c.toNat = 13

/-- ASCII case folding of one character, modelling `toLowerCase`. -/
def jsLowerChar (c : Char) : Char :=
  if 65 ≤ c.toNat ∧ c.toNat ≤ 90 then Char.ofNat (c.toNat + 32) else c

/-- Model of `String.prototype.toLowerCase`. -/
def jsToLower (s : JsStr) : JsStr := s.map jsLowerChar

/-- Model of `String.prototype.trim`: drop leading and trailing whitespace. -/
def jsTrim (s : JsStr) : JsStr :=
  ((s.dropWhile jsIsWs).reverse.dropWhile jsIsWs).reverse

/-- Abbreviation turning a Lean string literal into a modelled JS string. -/
def js (s : String) : JsStr := s.data

/-- One millisecond-count per day: `24 * 60 * 60 * 1000` from the source. -/
def msPerDay : Int := 24 * 60 * 60 * 1000

/-- A stored submission record, with the exact fields `saveSubmission`
persists: the sanitized form data plus `id`, `createdAt`, `expiresAt`. -/
structure Submission where
  id : JsStr
  name : JsStr
  company : JsStr
  email : JsStr
  interests : List JsStr
  interestOther : JsStr
  website : JsStr
  budget : JsStr
  deadline : JsStr
  message : JsStr
  consent : Bool
  consentTimestamp : Int
  submittedAt : Int
  ipHash : JsStr
  createdAt : Int
  expiresAt : Int
deriving DecidableEq, Repr

/-- The sanitized payload handed to `saveSubmission` (everything of a
`Submission` except the fields `saveSubmission` itself stamps). -/
structure SubmissionData where
  name : JsStr
  company : JsStr
  email : JsStr
  interests : List JsStr
  interestOther : JsStr
  website : JsStr
  budget : JsStr
  deadline : JsStr
  message : JsStr
  consent : Bool
  consentTimestamp : Int
  submittedAt : Int
  ipHash : JsStr
deriving DecidableEq, Repr

/-- The record `saveSubmission` builds: the payload spread into a new object
together with a fresh `id`, `createdAt := now` and
`expiresAt := now + RETENTION_DAYS * 24*60*60*1000`. -/
def mkSubmission (retentionDays : Int) (now : Int) (id : JsStr)
    (d : SubmissionData) : Submission :=
  { id := id
    name := d.name
    company := d.company
    email := d.email
    interests := d.interests
    interestOther := d.interestOther
    website := d.website
    budget := d.budget
    deadline := d.deadline
    message := d.message
    consent := d.consent
    consentTimestamp := d.consentTimestamp
    submittedAt := d.submittedAt
    ipHash := d.ipHash
    createdAt := now
    expiresAt := now + retentionDays * msPerDay }

/-- `saveSubmission`: push the stamped record onto the stored list and
return the new store together with the generated id. -/
def saveSubmission (retentionDays : Int) (now : Int) (id : JsStr)
    (d : SubmissionData) (store : List Submission) :
    List Submission × JsStr :=
  (store ++ [mkSubmission retentionDays now id d], id)

/-- `cleanupExpiredData`: keep the submissions whose `expiresAt` is still in
the future (`new Date(submission.expiresAt) > now`) and return the new store
together with `expiredCount = submissions.length - validSubmissions.length`. -/
def cleanupExpiredData (now : Int) (store : List Submission) :
    List Submission × Nat :=
  let validSubmissions := store.filter (fun s => decide (now < s.expiresAt))
  (validSubmissions, store.length - validSubmissions.length)

/-- `deleteByEmail`: normalize the argument with `toLowerCase().trim()`,
keep the submissions whose lowercased stored email differs from it, and
return the new store together with the deleted count. -/
def deleteByEmail (email : JsStr) (store : List Submission) :
    List Submission × Nat :=
  let normalizedEmail := jsTrim (jsToLower email)
  let remaining :=
    store.filter (fun s => decide (¬ jsToLower s.email = normalizedEmail))
  (remaining, store.length - remaining.length)

/-- The redacted projection `exportByEmail` returns: the submission's public
fields only, with `submittedAt` taken from `createdAt`. -/
structure ExportRecord where
  id : JsStr
  name : JsStr
  company : JsStr
  email : JsStr
  interests : List JsStr
  interestOther : JsStr
  website : JsStr
  budget : JsStr
  deadline : JsStr
  message : JsStr
  submittedAt : Int
deriving DecidableEq, Repr

/-- The per-submission projection in `exportByEmail`'s final `map`. -/
def exportRecordOf (s : Submission) : ExportRecord :=
  { id := s.id
    name := s.name
    company := s.company
    email := s.email
    interests := s.interests
    interestOther := s.interestOther
    website := s.website
    budget := s.budget
    deadline := s.deadline
    message := s.message
    submittedAt := s.createdAt }

/-- `exportByEmail`: filter on the normalized email, then project each
match to the redacted export record. -/
def exportByEmail (email : JsStr) (store : List Submission) :
    List ExportRecord :=
  let normalizedEmail := jsTrim (jsToLower email)
  (store.filter
      (fun s => decide (jsToLower s.email = normalizedEmail))).map
    exportRecordOf

/-! ## Encrypted storage (`encrypt` / `decrypt` / `readSubmissions`) -/

/-- Lowercase hex digit for a value below 16 (`Buffer.toString('hex')`). -/
def hexDigit (n : Nat) : Char :=
  if n < 10 then Char.ofNat (48 + n) else Char.ofNat (87 + n)

/-- Value of a lowercase-hex character (inverse of `hexDigit`). -/
def hexVal (c : Char) : Nat :=
  if 48 ≤ c.toNat ∧ c.toNat ≤ 57 then c.toNat - 48
  else if 97 ≤ c.toNat ∧ c.toNat ≤ 102 then c.toNat - 87
  else 0

/-- Hex rendering of a byte list, modelling `Buffer.toString('hex')`. -/
def bytesToHex (bs : List Nat) : List Char :=
  bs.flatMap (fun b => [hexDigit (b / 16), hexDigit (b % 16)])

/-- Hex parsing of a byte list, modelling `Buffer.from(s, 'hex')`. -/
def hexToBytes : List Char → List Nat
  | c1 :: c2 :: rest => (16 * hexVal c1 + hexVal c2) :: hexToBytes rest
  | _ => []

/-- CTR-mode body of AES-GCM: XOR the data with the keystream byte at each
position, starting at index `i`. -/
def xorKeystreamFrom (ks : Nat → Nat) : Nat → List Nat → List Nat
  | _, [] => []
  | i, b :: bs => (b ^^^ ks i % 256) :: xorKeystreamFrom ks (i + 1) bs

/-- XOR a byte list against a keystream, the data path of AES-256-GCM. -/
def xorKeystream (ks : Nat → Nat) (bs : List Nat) : List Nat :=
  xorKeystreamFrom ks 0 bs

/-- The envelope `encrypt` returns and `writeSubmissions` persists:
`{ iv, authTag, data }`, all three hex strings. -/
structure EncryptedEnvelope where
  iv : JsStr
  authTag : JsStr
  data : JsStr
deriving DecidableEq, Repr

/-- The external primitives `encrypt`/`decrypt` call, as parameters:
the AES-256-GCM keystream for the fixed key and a given IV, the GCM
authentication tag for a given IV and ciphertext, and the
`JSON.stringify`-to-UTF-8 / UTF-8-to-`JSON.parse` serialization pair.
`deser` is partial because `JSON.parse` throws on garbage. -/
structure CipherModel where
  ks : List Nat → Nat → Nat
  tagOf : List Nat → List Nat → List Nat
  ser : List Submission → List Nat
  deser : List Nat → Option (List Submission)

/-- `encrypt`: serialize the submission list, XOR it with the keystream for
the fresh IV, and return the hex-encoded IV, auth tag and ciphertext. -/
def encrypt (m : CipherModel) (iv : List Nat) (subs : List Submission) :
    EncryptedEnvelope :=
  let plaintext := m.ser subs
  let ciphertext := xorKeystream (m.ks iv) plaintext
  { iv := bytesToHex iv
    authTag := bytesToHex (m.tagOf iv ciphertext)
    data := bytesToHex ciphertext }

/-- `decrypt`: decode the envelope's hex fields, verify the authentication
tag (`decipher.final` throws on mismatch, modelled as `none`), XOR the
ciphertext with the keystream for the envelope's IV and parse the result. -/
def decrypt (m : CipherModel) (env : EncryptedEnvelope) :
    Option (List Submission) :=
  let iv := hexToBytes env.iv
  let ciphertext := hexToBytes env.data
  if m.tagOf iv ciphertext = hexToBytes env.authTag then
    m.deser (xorKeystream (m.ks iv) ciphertext)
  else none

/-- Outcome of `fs.readFile` on the submissions file: contents (already
parsed into the envelope `writeSubmissions` stored), a missing file
(`ENOENT`), or any other I/O error. -/
inductive FileReadResult where
  | found (env : EncryptedEnvelope)
  | enoent
  | ioErr (msg : JsStr)
deriving DecidableEq, Repr

/-- `readSubmissions`: a missing file yields the empty list, any other read
error propagates, and otherwise the decrypted list is returned (a
decryption/parse failure propagating as an error as well). -/
def readSubmissions (m : CipherModel) (file : FileReadResult) :
    Except JsStr (List Submission) :=
  match file with
  | .enoent => .ok []
  | .ioErr e => .error e
  | .found env =>
    match decrypt m env with
    | some subs => .ok subs
    | none => .error (js "decryption failed")

/-! ## Contact route (`POST /api/contact`) -/

/-- `ALLOWED_INTERESTS` from `routes/contact.js`. -/
def ALLOWED_INTERESTS : List JsStr :=
  [js "3d-modell", js "ar-optimiert", js "renderings", js "animation",
   js "other"]

/-- `ALLOWED_BUDGETS` from `routes/contact.js`. -/
def ALLOWED_BUDGETS : List JsStr :=
  [js "<500", js "500-1000", js ">1000", js ""]

/-- One character of `validator.escape`: the HTML-significant characters
are replaced by entities, everything else passes through. -/
def escapeChar (c : Char) : JsStr :=
  if c = '&' then js "&amp;"
  else if c = '<' then js "&lt;"
  else if c = '>' then js "&gt;"
  else if c = '"' then js "&quot;"
  else if c = '\'' then js "&#x27;"
  else if c = '/' then js "&#x2F;"
  else if c = '\\' then js "&#x5C;"
  else if c = '`' then js "&#96;"
  else [c]

/-- Model of `validator.escape`. -/
def escapeHtml (s : JsStr) : JsStr := s.flatMap escapeChar

/-- `sanitizeString`: trim, then HTML-escape (the non-string branch is the
`Option.none` case at each call site). -/
def sanitizeString (s : JsStr) : JsStr := escapeHtml (jsTrim s)

/-- The `validator`-library checks the route calls, as parameters:
`isEmail`, `isURL` (with the route's option objects) and
`isDate(·, 'YYYY-MM-DD')`, plus `normalizeEmail`, which returns `false`
("none") on input it cannot normalize. -/
structure ValidatorModel where
  isEmail : JsStr → Bool
  isURL : JsStr → Bool
  isDate : JsStr → Bool
  normalizeEmail : JsStr → Option JsStr

/-- The request body of `POST /api/contact` after destructuring: each field
is absent (`undefined`) or a value of its expected type. -/
structure ContactBody where
  name : Option JsStr
  company : Option JsStr
  email : Option JsStr
  interests : Option (List JsStr)
  interestOther : Option JsStr
  website : Option JsStr
  budget : Option JsStr
  deadline : Option JsStr
  message : Option JsStr
  consent : Option Bool
deriving DecidableEq, Repr

/-- `!v || v.trim() === ''`: the blank test of the required string fields
(`undefined` and the empty string are falsy). -/
def isBlankOpt : Option JsStr → Bool
  | none => true
  | some s => s = [] || jsTrim s = []

/-- `isValidUrl`: absent/blank is valid (optional field), otherwise defer
to `validator.isURL`. -/
def isValidUrl (vm : ValidatorModel) : Option JsStr → Bool
  | none => true
  | some u => u = [] || jsTrim u = [] || vm.isURL u

/-- `isValidDate`: absent/blank is valid (optional field), otherwise defer
to `validator.isDate`. -/
def isValidDate (vm : ValidatorModel) : Option JsStr → Bool
  | none => true
  | some d => d = [] || jsTrim d = [] || vm.isDate d

/-- The `errors` array the handler accumulates, in source order. -/
def contactErrors (vm : ValidatorModel) (b : ContactBody) : List JsStr :=
  (if isBlankOpt b.company then [js "Unternehmensname ist erforderlich"]
   else [])
  ++ (match b.email with
      | none => [js "E-Mail-Adresse ist erforderlich"]
      | some e =>
        if e = [] || jsTrim e = [] then
          [js "E-Mail-Adresse ist erforderlich"]
        else if ¬ vm.isEmail e then
          [js "Bitte geben Sie eine gültige E-Mail-Adresse ein"]
        else [])
  ++ (match b.interests with
      | none => [js "Bitte wählen Sie mindestens ein Interesse aus"]
      | some l =>
        if l = [] then [js "Bitte wählen Sie mindestens ein Interesse aus"]
        else if l.any (fun i => decide (¬ i ∈ ALLOWED_INTERESTS)) then
          [js "Ungültige Interessenauswahl"]
        else [])
  ++ (if isBlankOpt b.message then [js "Projektbeschreibung ist erforderlich"]
      else [])
  ++ (if ¬ b.consent = some true then
        [js "Bitte stimmen Sie der Datenschutzerklärung zu"]
      else [])
  ++ (if ¬ isValidUrl vm b.website then
        [js "Bitte geben Sie eine gültige Website-URL ein"]
      else [])
  ++ (match b.budget with
      | none => []
      | some bg =>
        if ¬ bg = [] ∧ ¬ bg ∈ ALLOWED_BUDGETS then
          [js "Ungültige Budget-Auswahl"]
        else [])
  ++ (if ¬ isValidDate vm b.deadline then
        [js "Bitte geben Sie ein gültiges Datum ein"]
      else [])

/-- The `sanitizedData` object built after validation passes; `now` is the
request timestamp, `ipHash` the salted HMAC of the client IP. -/
def mkSanitizedData (vm : ValidatorModel) (now : Int) (ipHash : JsStr)
    (b : ContactBody) : SubmissionData :=
  { name := sanitizeString (b.name.getD [])
    company := sanitizeString (b.company.getD [])
    email :=
      match vm.normalizeEmail (b.email.getD []) with
      | some n =>
        if n = [] then jsTrim (jsToLower (b.email.getD [])) else n
      | none => jsTrim (jsToLower (b.email.getD []))
    interests :=
      (b.interests.getD []).filter (fun i => decide (i ∈ ALLOWED_INTERESTS))
    interestOther :=
      if (b.interests.getD []).contains (js "other") then
        sanitizeString (b.interestOther.getD [])
      else []
    website :=
      match b.website with
      | some w => if ¬ w = [] then jsTrim w else []
      | none => []
    budget :=
      match b.budget with
      | some bg => if bg ∈ ALLOWED_BUDGETS then bg else []
      | none => []
    deadline :=
      match b.deadline with
      | some d => if ¬ d = [] then jsTrim d else []
      | none => []
    message := sanitizeString (b.message.getD [])
    consent := true
    consentTimestamp := now
    submittedAt := now
    ipHash := ipHash }

/-- The handler of `POST /api/contact`, returning the HTTP status it sends
and the submission store after the request: validation failure answers 400
and leaves the store alone; otherwise the sanitized submission is saved
and the handler answers 200. -/
def postContact (vm : ValidatorModel) (retentionDays now : Int)
    (id ipHash : JsStr) (b : ContactBody) (store : List Submission) :
    Nat × List Submission :=
  let errors := contactErrors vm b
  if ¬ errors = [] then (400, store)
  else
    let d := mkSanitizedData vm now ipHash b
    (200, (saveSubmission retentionDays now id d store).1)

/-! ## Email service (`generateShortId`) -/

/-- Hex-digit test of JS `parseInt(s, 16)` (both letter cases). -/
def isHexDigitJs (c : Char) : Bool :=
  (48 ≤ c.toNat && c.toNat ≤ 57) || (97 ≤ c.toNat && c.toNat ≤ 102)
    || (65 ≤ c.toNat && c.toNat ≤ 70)

/-- Value of a hex digit in either case. -/
def hexValJs (c : Char) : Nat :=
  if 48 ≤ c.toNat ∧ c.toNat ≤ 57 then c.toNat - 48
  else if 97 ≤ c.toNat ∧ c.toNat ≤ 102 then c.toNat - 87
  else if 65 ≤ c.toNat ∧ c.toNat ≤ 70 then c.toNat - 55
  else 0

/-- `parseInt(s, 16)`: evaluate the maximal leading run of hex digits,
`none` (NaN) when there is no such digit. -/
def parseIntHex (s : JsStr) : Option Nat :=
  match s.takeWhile isHexDigitJs with
  | [] => none
  | ds => some (ds.foldl (fun acc c => 16 * acc + hexValJs c) 0)

/-- Little-endian decimal digits, with fuel bounding the digit count
(20 digits cover every number below `10 ^ 20`, far beyond the 53-bit
integers JS renders exactly). -/
def decDigitsAux : Nat → Nat → List Nat
  | 0, _ => []
  | fuel + 1, n =>
    if n < 10 then [n] else n % 10 :: decDigitsAux fuel (n / 10)

/-- Little-endian decimal digits of a natural number. -/
def decDigits (n : Nat) : List Nat := decDigitsAux 20 n

/-- Decimal rendering, modelling `Number.prototype.toString()` on a
non-negative integer. -/
def natToDec (n : Nat) : JsStr :=
  (decDigits n).reverse.map (fun d => Char.ofNat (48 + d))

/-- `generateShortId`: strip hyphens, parse the first 10 characters as hex,
reduce into the range 10000–99999 and render in decimal ("NaN" when the
parse fails, since `NaN.toString()` is "NaN"). -/
def generateShortId (uuid : JsStr) : JsStr :=
  let cleanUuid := uuid.filter (fun c => decide (¬ c = '-'))
  match parseIntHex (cleanUuid.take 10) with
  | none => js "NaN"
  | some numericValue => natToDec (numericValue % 90000 + 10000)

/-! ## Shared concrete values for witnesses and counterexamples -/

/-- A concrete sanitized payload, used to instantiate theorems. -/
def sampleData : SubmissionData :=
  { name := js "Max"
    company := js "ACME"
    email := js "a@x.com"
    interests := [js "renderings"]
    interestOther := []
    website := []
    budget := []
    deadline := []
    message := js "Hallo"
    consent := true
    consentTimestamp := 0
    submittedAt := 0
    ipHash := js "0123456789abcdef" }

/-- A concrete stored submission with a given id and email. -/
def sampleSub (id email : JsStr) : Submission :=
  { id := id
    name := js "Max"
    company := js "ACME"
    email := email
    interests := [js "renderings"]
    interestOther := []
    website := []
    budget := []
    deadline := []
    message := js "Hallo"
    consent := true
    consentTimestamp := 0
    submittedAt := 0
    ipHash := js "0123456789abcdef"
    createdAt := 0
    expiresAt := 15552000000 }

/-! ## Claims -/

/-- A helper: the removed count of a filtering pass is the length of the
complement filter. -/
theorem length_sub_filter (l : List Submission) (p : Submission → Bool) :
    l.length - (l.filter p).length = (l.filter (fun x => ! p x)).length := by
  rw [List.length_eq_length_filter_add (l := l) p]
  omega

/-- C2: `cleanupExpiredData` retains exactly the submissions whose expiry
lies strictly in the future and returns the count of the removed ones; a
submission saved 200 days ago under retention 180 is removed by the next
pass, one saved 10 days ago is retained. -/
theorem cleanupExpiredData_spec
    (now : Int) (store : List Submission) (id1 id2 : JsStr)
    (d : SubmissionData) :
    (∀ s, s ∈ (cleanupExpiredData now store).1 ↔
        s ∈ store ∧ ¬ s.expiresAt ≤ now)
    ∧ (cleanupExpiredData now store).2
        = (store.filter (fun s => decide (s.expiresAt ≤ now))).length
    ∧ (cleanupExpiredData now
        [mkSubmission 180 (now - 200 * msPerDay) id1 d]).1 = []
    ∧ (cleanupExpiredData now
        [mkSubmission 180 (now - 200 * msPerDay) id1 d]).2 = 1
    ∧ (cleanupExpiredData now
        [mkSubmission 180 (now - 10 * msPerDay) id2 d]).1
        = [mkSubmission 180 (now - 10 * msPerDay) id2 d] := by
  have h200 : decide (now < (mkSubmission 180 (now - 200 * msPerDay) id1 d).expiresAt) = false := by
    simp [mkSubmission, msPerDay]
    omega
  have h10 : decide (now < (mkSubmission 180 (now - 10 * msPerDay) id2 d).expiresAt) = true := by
    simp [mkSubmission, msPerDay]
    omega
  refine ⟨?_, ?_, ?_, ?_, ?_⟩
  · intro s
    simp [cleanupExpiredData, List.mem_filter, not_le]
  · show store.length - _ = _
    rw [length_sub_filter]
    congr 1
    apply List.filter_congr
    intro s _
    by_cases h : now < s.expiresAt
    · simp [h, not_le.mpr h]
    · simp [h, not_lt.mp h]
  · simp [cleanupExpiredData, List.filter, h200]
  · simp [cleanupExpiredData, List.filter, h200]
  · simp [cleanupExpiredData, List.filter, h10]

/-- C2 witness: the general theorem applied at a concrete instant, store
and payload. -/
theorem cleanupExpiredData_spec_witness :
    sampleSub (js "1") (js "a@x.com")
        ∈ (cleanupExpiredData 0 [sampleSub (js "1") (js "a@x.com")]).1 :=
  ((cleanupExpiredData_spec 0 [sampleSub (js "1") (js "a@x.com")]
      (js "1") (js "2") sampleData).1
    (sampleSub (js "1") (js "a@x.com"))).mpr
    ⟨by simp, by decide⟩

/-- C4: every submission in the store after `saveSubmission` is either a
previously stored one or satisfies
`expiresAt = createdAt + retentionDays` (in milliseconds). -/
theorem saveSubmission_expiry
    (retentionDays now : Int) (id : JsStr) (d : SubmissionData)
    (store : List Submission) :
    (mkSubmission retentionDays now id d).expiresAt
        = (mkSubmission retentionDays now id d).createdAt
          + retentionDays * msPerDay
    ∧ ∀ s ∈ (saveSubmission retentionDays now id d store).1,
        s ∈ store ∨ s.expiresAt = s.createdAt + retentionDays * msPerDay := by
  constructor
  · rfl
  · intro s hs
    simp only [saveSubmission, List.mem_append, List.mem_singleton] at hs
    rcases hs with h | h
    · exact Or.inl h
    · right
      subst h
      rfl

/-- C4 witness: the theorem applied at a concrete save, the membership
hypothesis discharged on the submission just stored. -/
theorem saveSubmission_expiry_witness :
    mkSubmission 180 0 (js "1") sampleData ∈ ([] : List Submission)
      ∨ (mkSubmission 180 0 (js "1") sampleData).expiresAt
          = (mkSubmission 180 0 (js "1") sampleData).createdAt
            + 180 * msPerDay :=
  (saveSubmission_expiry 180 0 (js "1") sampleData []).2
    (mkSubmission 180 0 (js "1") sampleData) (by simp [saveSubmission])

/-- C5: running `cleanupExpiredData` again immediately, with the clock
unchanged, removes nothing: it returns count 0 and the store it was
given. -/
theorem cleanupExpiredData_idempotent (now : Int) (store : List Submission) :
    cleanupExpiredData now (cleanupExpiredData now store).1
      = ((cleanupExpiredData now store).1, 0) := by
  unfold cleanupExpiredData
  simp [List.filter_filter]

/-- C3 counterexample: the argument is trimmed before matching, so with the
stored email `"a@x.com"` and the argument `"a@x.com "` (trailing blank)
`deleteByEmail` removes the submission although its email is not a
case-insensitive match of the argument: the remaining store is not the
list of case-insensitive non-matches. -/
theorem deleteByEmail_claim_counterexample :
    ¬ ((deleteByEmail (js "a@x.com ") [sampleSub (js "1") (js "a@x.com")]).1
        = [sampleSub (js "1") (js "a@x.com")].filter
            (fun s =>
              decide (¬ jsToLower s.email = jsToLower (js "a@x.com ")))) := by
  decide

/-- C3 (amended): `deleteByEmail` removes exactly the submissions whose
email matches the whitespace-trimmed argument case-insensitively and
returns the number removed; with stored emails "A@x.com", "a@x.com" and an
unrelated one, deleting "a@x.com" removes 2 and leaves 1. -/
theorem deleteByEmail_spec (email : JsStr) (store : List Submission) :
    (∀ s, s ∈ (deleteByEmail email store).1 ↔
        s ∈ store ∧ ¬ jsToLower s.email = jsTrim (jsToLower email))
    ∧ (deleteByEmail email store).2
        = (store.filter
            (fun s =>
              decide (jsToLower s.email = jsTrim (jsToLower email)))).length
    ∧ (deleteByEmail (js "a@x.com")
         [sampleSub (js "1") (js "A@x.com"), sampleSub (js "2") (js "a@x.com"),
          sampleSub (js "3") (js "z@y.com")]).2 = 2
    ∧ (deleteByEmail (js "a@x.com")
         [sampleSub (js "1") (js "A@x.com"), sampleSub (js "2") (js "a@x.com"),
          sampleSub (js "3") (js "z@y.com")]).1
        = [sampleSub (js "3") (js "z@y.com")] := by
  refine ⟨?_, ?_, by decide, by decide⟩
  · intro s
    simp [deleteByEmail, List.mem_filter]
  · show store.length - _ = _
    rw [length_sub_filter]
    congr 1
    apply List.filter_congr
    intro s _
    by_cases h : jsToLower s.email = jsTrim (jsToLower email) <;> simp [h]

/-- C3 witness: the amended theorem applied at a concrete store and
argument, the membership equivalence discharged on a retained
submission. -/
theorem deleteByEmail_spec_witness :
    sampleSub (js "3") (js "z@y.com")
      ∈ (deleteByEmail (js "a@x.com")
          [sampleSub (js "3") (js "z@y.com")]).1 :=
  ((deleteByEmail_spec (js "a@x.com")
      [sampleSub (js "3") (js "z@y.com")]).1
    (sampleSub (js "3") (js "z@y.com"))).mpr ⟨by simp, by decide⟩

/-- C8 counterexample: `exportByEmail` also trims the argument, so with the
stored email `"b@y.com"` and the argument `"b@y.com "` it exports the
submission although its email is not a case-insensitive match of the
argument: the result is not the projection of the case-insensitive
matches. -/
theorem exportByEmail_claim_counterexample :
    ¬ (exportByEmail (js "b@y.com ") [sampleSub (js "4") (js "b@y.com")]
        = ([sampleSub (js "4") (js "b@y.com")].filter
            (fun s =>
              decide (jsToLower s.email = jsToLower (js "b@y.com ")))).map
            exportRecordOf) := by
  decide

/-- C8 (amended): `exportByEmail` returns exactly the submissions whose
email matches the whitespace-trimmed argument case-insensitively, each
projected to the redacted export record; the projection is independent of
the internal fields `ipHash`, `consent`, `consentTimestamp` and
`expiresAt`, and exposes `createdAt` as `submittedAt`. -/
theorem exportByEmail_spec (email : JsStr) (store : List Submission) :
    (∀ r, r ∈ exportByEmail email store ↔
        ∃ s, s ∈ store ∧ jsToLower s.email = jsTrim (jsToLower email)
          ∧ r = exportRecordOf s)
    ∧ (∀ s ih c ct ea,
        exportRecordOf
            { s with ipHash := ih, consent := c, consentTimestamp := ct,
                     expiresAt := ea }
          = exportRecordOf s)
    ∧ (∀ s, (exportRecordOf s).submittedAt = s.createdAt) := by
  refine ⟨?_, fun s ih c ct ea => rfl, fun s => rfl⟩
  intro r
  simp only [exportByEmail, List.mem_map, List.mem_filter, decide_eq_true_eq]
  constructor
  · rintro ⟨s, ⟨hs, he⟩, hr⟩
    exact ⟨s, hs, he, hr.symm⟩
  · rintro ⟨s, hs, he, hr⟩
    exact ⟨s, ⟨hs, he⟩, hr.symm⟩

/-- Hex digits invert their rendering below 16. -/
theorem hexVal_hexDigit : ∀ n < 16, hexVal (hexDigit n) = n := by decide

/-- Hex decoding inverts hex encoding on byte lists. -/
theorem hexToBytes_bytesToHex (bs : List Nat) (h : ∀ b ∈ bs, b < 256) :
    hexToBytes (bytesToHex bs) = bs := by
  induction bs with
  | nil => rfl
  | cons b bs ih =>
    have hb : b < 256 := h b (List.mem_cons_self b bs)
    have h1 : hexVal (hexDigit (b / 16)) = b / 16 :=
      hexVal_hexDigit _ (Nat.div_lt_of_lt_mul hb)
    have h2 : hexVal (hexDigit (b % 16)) = b % 16 :=
      hexVal_hexDigit _ (Nat.mod_lt _ (by omega))
    simp only [bytesToHex, List.flatMap_cons] at *
    show hexToBytes (hexDigit (b / 16) :: hexDigit (b % 16) :: _) = _
    rw [hexToBytes, h1, h2, Nat.div_add_mod]
    exact congrArg (b :: ·) (ih fun x hx => h x (List.mem_cons_of_mem _ hx))

/-- XORing against the same keystream twice is the identity. -/
theorem xorKeystreamFrom_involutive (ks : Nat → Nat) (bs : List Nat) :
    ∀ i, xorKeystreamFrom ks i (xorKeystreamFrom ks i bs) = bs := by
  induction bs with
  | nil => intro i; rfl
  | cons b bs ih =>
    intro i
    show (b ^^^ ks i % 256 ^^^ ks i % 256) :: _ = _
    rw [Nat.xor_assoc, Nat.xor_self, Nat.xor_zero]
    exact congrArg (b :: ·) (ih (i + 1))

/-- The keystream XOR keeps byte lists byte lists. -/
theorem xorKeystreamFrom_lt (ks : Nat → Nat) (bs : List Nat)
    (h : ∀ b ∈ bs, b < 256) :
    ∀ i, ∀ c ∈ xorKeystreamFrom ks i bs, c < 256 := by
  induction bs with
  | nil => intro i c hc; cases hc
  | cons b bs ih =>
    intro i c hc
    rcases List.mem_cons.mp hc with rfl | hc
    · have hb : b < 256 := h b (List.mem_cons_self b bs)
      have hk : ks i % 256 < 256 := Nat.mod_lt _ (by omega)
      have := Nat.bitwise_lt (f := bne) (n := 8) hb hk
      simpa [Nat.xor] using this
    · exact ih (fun x hx => h x (List.mem_cons_of_mem _ hx)) (i + 1) c hc

/-- C1: for any key/IV keystream, tag function and serialization pair
satisfying the serialization round-trip on the list at hand, `decrypt`
inverts `encrypt`: the submission list, the empty one included, comes back
identical. -/
theorem encrypt_decrypt_roundtrip (m : CipherModel) (iv : List Nat)
    (subs : List Submission)
    (hiv : ∀ b ∈ iv, b < 256)
    (hser : ∀ b ∈ m.ser subs, b < 256)
    (htag : ∀ iv2 ct, ∀ b ∈ m.tagOf iv2 ct, b < 256)
    (hround : m.deser (m.ser subs) = some subs) :
    decrypt m (encrypt m iv subs) = some subs := by
  have hct : ∀ c ∈ xorKeystream (m.ks iv) (m.ser subs), c < 256 :=
    xorKeystreamFrom_lt _ _ hser 0
  have hivrt : hexToBytes (bytesToHex iv) = iv := hexToBytes_bytesToHex _ hiv
  have hctrt :
      hexToBytes (bytesToHex (xorKeystream (m.ks iv) (m.ser subs)))
        = xorKeystream (m.ks iv) (m.ser subs) :=
    hexToBytes_bytesToHex _ hct
  have htagrt :
      hexToBytes (bytesToHex
          (m.tagOf iv (xorKeystream (m.ks iv) (m.ser subs))))
        = m.tagOf iv (xorKeystream (m.ks iv) (m.ser subs)) :=
    hexToBytes_bytesToHex _ (htag _ _)
  simp only [decrypt, encrypt, hivrt, hctrt, htagrt]
  rw [if_pos trivial, xorKeystream, xorKeystream, xorKeystreamFrom_involutive,
    hround]

/-! A concrete, executable serialization pair used to instantiate the
`JSON.stringify`/`JSON.parse` parameters in witnesses. -/

/-- Little-endian base-128 rendering with a continuation bit; the fuel
bounds the digit count (64 digits cover every number below `128 ^ 64`). -/
def varintBytesAux : Nat → Nat → List Nat
  | 0, _ => []
  | fuel + 1, n =>
    if n < 128 then [n] else (n % 128 + 128) :: varintBytesAux fuel (n / 128)

/-- Little-endian base-128 rendering with a continuation bit. -/
def varintBytes (n : Nat) : List Nat := varintBytesAux 64 n

/-- Read one varint off the front of a byte list. -/
def readVarint : List Nat → Option (Nat × List Nat)
  | [] => none
  | b :: rest =>
    if b < 128 then some (b, rest)
    else
      match readVarint rest with
      | some (m, r) => some (m * 128 + (b - 128), r)
      | none => none

/-- Serialize a modelled string: length, then each character code. -/
def serStr (s : JsStr) : List Nat :=
  varintBytes s.length ++ s.flatMap (fun c => varintBytes c.toNat)

/-- Read a given number of characters. -/
def readChars : Nat → List Nat → Option (JsStr × List Nat)
  | 0, bs => some ([], bs)
  | k + 1, bs => do
    let (n, r) ← readVarint bs
    let (cs, r2) ← readChars k r
    pure (Char.ofNat n :: cs, r2)

/-- Read one serialized string. -/
def readStr (bs : List Nat) : Option (JsStr × List Nat) := do
  let (n, r) ← readVarint bs
  readChars n r

/-- Serialize a signed millisecond timestamp. -/
def serInt (i : Int) : List Nat :=
  (if 0 ≤ i then 0 else 1) :: varintBytes i.natAbs

/-- Read one serialized timestamp. -/
def readInt (bs : List Nat) : Option (Int × List Nat) :=
  match bs with
  | s :: r => do
    let (n, r2) ← readVarint r
    pure (if s = 0 then (n : Int) else -(n : Int), r2)
  | [] => none

/-- Serialize a string list: length, then each string. -/
def serStrList (l : List JsStr) : List Nat :=
  varintBytes l.length ++ l.flatMap serStr

/-- Read a given number of serialized strings. -/
def readStrs : Nat → List Nat → Option (List JsStr × List Nat)
  | 0, bs => some ([], bs)
  | k + 1, bs => do
    let (s, r) ← readStr bs
    let (ss, r2) ← readStrs k r
    pure (s :: ss, r2)

/-- Read one serialized string list. -/
def readStrList (bs : List Nat) : Option (List JsStr × List Nat) := do
  let (n, r) ← readVarint bs
  readStrs n r

/-- Serialize one submission field by field. -/
def serSubmissionBytes (s : Submission) : List Nat :=
  serStr s.id ++ serStr s.name ++ serStr s.company ++ serStr s.email
    ++ serStrList s.interests ++ serStr s.interestOther ++ serStr s.website
    ++ serStr s.budget ++ serStr s.deadline ++ serStr s.message
    ++ [if s.consent then 1 else 0] ++ serInt s.consentTimestamp
    ++ serInt s.submittedAt ++ serStr s.ipHash ++ serInt s.createdAt
    ++ serInt s.expiresAt

/-- Read one serialized submission. -/
def readSubmissionBytes (bs : List Nat) :
    Option (Submission × List Nat) := do
  let (id, r1) ← readStr bs
  let (name, r2) ← readStr r1
  let (company, r3) ← readStr r2
  let (email, r4) ← readStr r3
  let (interests, r5) ← readStrList r4
  let (interestOther, r6) ← readStr r5
  let (website, r7) ← readStr r6
  let (budget, r8) ← readStr r7
  let (deadline, r9) ← readStr r8
  let (message, r10) ← readStr r9
  match r10 with
  | [] => none
  | cb :: r11 => do
    let (consentTimestamp, r12) ← readInt r11
    let (submittedAt, r13) ← readInt r12
    let (ipHash, r14) ← readStr r13
    let (createdAt, r15) ← readInt r14
    let (expiresAt, r16) ← readInt r15
    pure
      ({ id := id, name := name, company := company, email := email,
         interests := interests, interestOther := interestOther,
         website := website, budget := budget, deadline := deadline,
         message := message, consent := cb = 1,
         consentTimestamp := consentTimestamp, submittedAt := submittedAt,
         ipHash := ipHash, createdAt := createdAt,
         expiresAt := expiresAt }, r16)

/-- Read a given number of serialized submissions. -/
def readSubs : Nat → List Nat → Option (List Submission × List Nat)
  | 0, bs => some ([], bs)
  | k + 1, bs => do
    let (s, r) ← readSubmissionBytes bs
    let (ss, r2) ← readSubs k r
    pure (s :: ss, r2)

/-- Serialize a submission list: length, then each submission. -/
def serSubsBytes (l : List Submission) : List Nat :=
  varintBytes l.length ++ l.flatMap serSubmissionBytes

/-- Parse a full serialized submission list, rejecting trailing bytes. -/
def deserSubsBytes (bs : List Nat) : Option (List Submission) := do
  let (n, r) ← readVarint bs
  let (l, rest) ← readSubs n r
  if rest = [] then pure l else none

/-- A concrete cipher-model instance used by witnesses: a nontrivial
keystream, a checksum tag, and the serialization pair above. -/
def witnessCipher : CipherModel :=
  { ks := fun iv i => iv.headD 0 + i
    tagOf := fun iv ct => [(iv.foldl (· + ·) 0 + ct.foldl (· + ·) 0) % 256]
    ser := serSubsBytes
    deser := deserSubsBytes }

/-- C1 witness: the round-trip theorem applied with the concrete cipher
model, a concrete IV, a one-element list and the empty list, all
hypotheses discharged there. -/
theorem encrypt_decrypt_roundtrip_witness :
    decrypt witnessCipher
        (encrypt witnessCipher [7, 3]
          [sampleSub (js "1") (js "a@x.com")])
      = some [sampleSub (js "1") (js "a@x.com")]
    ∧ decrypt witnessCipher (encrypt witnessCipher [7, 3] []) = some [] :=
  ⟨encrypt_decrypt_roundtrip witnessCipher [7, 3]
      [sampleSub (js "1") (js "a@x.com")]
      (by decide) (by decide)
      (fun iv2 ct b hb => by
        simp only [witnessCipher, List.mem_singleton] at hb
        omega)
      (by decide),
   encrypt_decrypt_roundtrip witnessCipher [7, 3] []
      (by decide) (by decide)
      (fun iv2 ct b hb => by
        simp only [witnessCipher, List.mem_singleton] at hb
        omega)
      (by decide)⟩

/-- C7: `readSubmissions` turns a missing file into the empty submission
list, propagates every other read error to the caller, and otherwise
returns the decrypted list (a decryption failure propagating as an
error). -/
theorem readSubmissions_spec (m : CipherModel) (env : EncryptedEnvelope)
    (e : JsStr) :
    readSubmissions m .enoent = .ok []
    ∧ readSubmissions m (.ioErr e) = .error e
    ∧ (∀ subs, decrypt m env = some subs →
        readSubmissions m (.found env) = .ok subs)
    ∧ (decrypt m env = none →
        readSubmissions m (.found env) = .error (js "decryption failed")) := by
  refine ⟨rfl, rfl, ?_, ?_⟩
  · intro subs h
    simp [readSubmissions, h]
  · intro h
    simp [readSubmissions, h]

/-- C7 witness: the theorem applied with the concrete cipher model to a
well-formed envelope and to a tampered one. -/
theorem readSubmissions_spec_witness :
    readSubmissions witnessCipher
        (.found (encrypt witnessCipher [7, 3] [])) = .ok []
    ∧ readSubmissions witnessCipher
        (.found { iv := [], authTag := js "ff", data := [] })
        = .error (js "decryption failed") :=
  ⟨(readSubmissions_spec witnessCipher
        (encrypt witnessCipher [7, 3] []) []).2.2.1 [] (by decide),
   (readSubmissions_spec witnessCipher
        { iv := [], authTag := js "ff", data := [] } []).2.2.2 (by decide)⟩

/-- `Char.ofNat` below the surrogate range keeps the code point. -/
theorem charOfNat_toNat (n : Nat) (h : n < 55296) :
    (Char.ofNat n).toNat = n := by
  unfold Char.ofNat
  rw [dif_pos (Or.inl h)]
  rfl

/-- ASCII case folding does not create or destroy whitespace. -/
theorem jsIsWs_jsLowerChar (c : Char) :
    jsIsWs (jsLowerChar c) = jsIsWs c := by
  unfold jsLowerChar
  split
  · rename_i h
    have hv : (Char.ofNat (c.toNat + 32)).toNat = c.toNat + 32 :=
      charOfNat_toNat _ (by omega)
    have l1 : jsIsWs (Char.ofNat (c.toNat + 32)) = false := by
      simp only [jsIsWs, hv]
      simp only [Bool.or_eq_false_iff, decide_eq_false_iff_not]
      omega
    have l2 : jsIsWs c = false := by
      simp only [jsIsWs]
      simp only [Bool.or_eq_false_iff, decide_eq_false_iff_not]
      omega
    rw [l1, l2]
  · rfl

/-- A string trims to nothing exactly when it is all whitespace. -/
theorem jsTrim_eq_nil_iff (s : JsStr) :
    jsTrim s = [] ↔ ∀ c ∈ s, jsIsWs c := by
  unfold jsTrim
  rw [List.reverse_eq_nil_iff, List.dropWhile_eq_nil_iff]
  constructor
  · intro h c hc
    rw [← List.takeWhile_append_dropWhile (p := jsIsWs) (l := s)] at hc
    rcases List.mem_append.mp hc with h1 | h2
    · exact List.mem_takeWhile_imp h1
    · exact h c (List.mem_reverse.mpr h2)
  · intro h c hc
    exact h c ((List.dropWhile_sublist jsIsWs).subset (List.mem_reverse.mp hc))

/-- Lowercasing preserves having something left after trimming. -/
theorem jsTrim_jsToLower_ne_nil (s : JsStr) (h : ¬ jsTrim s = []) :
    ¬ jsTrim (jsToLower s) = [] := by
  intro hx
  apply h
  rw [jsTrim_eq_nil_iff] at hx ⊢
  intro c hc
  have := hx (jsLowerChar c) (List.mem_map_of_mem _ hc)
  rwa [jsIsWs_jsLowerChar] at this

/-- Each character escapes to a nonempty string. -/
theorem escapeChar_ne_nil (c : Char) : ¬ escapeChar c = [] := by
  unfold escapeChar
  repeat' split
  all_goals simp [js]

/-- `validator.escape` keeps nonempty strings nonempty. -/
theorem escapeHtml_ne_nil (l : JsStr) (h : ¬ l = []) :
    ¬ escapeHtml l = [] := by
  cases l with
  | nil => exact absurd rfl h
  | cons a t =>
    simp only [escapeHtml, List.flatMap_cons]
    intro hx
    rcases List.append_eq_nil.mp hx with ⟨h1, _⟩
    exact escapeChar_ne_nil a h1

/-- `takeWhile` keeps a list whose members all satisfy the test. -/
theorem takeWhile_all (p : Char → Bool) :
    ∀ l : JsStr, (∀ x ∈ l, p x) → l.takeWhile p = l := by
  intro l h
  induction l with
  | nil => rfl
  | cons a t ih =>
    have ha : p a := h a (List.mem_cons_self a t)
    simp only [List.takeWhile_cons, ha, if_true]
    exact congrArg (a :: ·) (ih fun x hx => h x (List.mem_cons_of_mem _ hx))

/-- A number between `10 ^ k` and `10 ^ (k + 1)` has `k + 1` decimal
digits, as long as the fuel exceeds `k`. -/
theorem decDigitsAux_length :
    ∀ k fuel n, 10 ^ k ≤ n → n < 10 ^ (k + 1) → k < fuel →
      (decDigitsAux fuel n).length = k + 1 := by
  intro k
  induction k with
  | zero =>
    intro fuel n h1 h2 hf
    cases fuel with
    | zero => omega
    | succ f =>
      have : n < 10 := by simpa using h2
      simp [decDigitsAux, this]
  | succ k ih =>
    intro fuel n h1 h2 hf
    cases fuel with
    | zero => omega
    | succ f =>
      have h10 : ¬ n < 10 := by
        have : (10 : Nat) ^ 1 ≤ 10 ^ (k + 1) := Nat.pow_le_pow_right (by omega) (by omega)
        simp only [pow_one] at this
        omega
      have hd1 : 10 ^ k ≤ n / 10 := by
        rw [Nat.le_div_iff_mul_le (by omega)]
        calc 10 ^ k * 10 = 10 ^ (k + 1) := by ring
          _ ≤ n := h1
      have hd2 : n / 10 < 10 ^ (k + 1) := by
        rw [Nat.div_lt_iff_lt_mul (by omega)]
        calc n < 10 ^ (k + 2) := h2
          _ = 10 ^ (k + 1) * 10 := by ring
      simp only [decDigitsAux, h10, if_false, List.length_cons]
      rw [ih f (n / 10) hd1 hd2 (by omega)]

/-- A five-digit number renders as five characters. -/
theorem natToDec_length5 (n : Nat) (h1 : 10000 ≤ n) (h2 : n ≤ 99999) :
    (natToDec n).length = 5 := by
  have := decDigitsAux_length 4 20 n (by norm_num; omega) (by norm_num; omega)
    (by omega)
  simp only [natToDec, List.length_map, List.length_reverse, decDigits]
  omega

/-- C9: on a UUID-like argument (hyphens aside, its first ten characters
are hex digits) `generateShortId` parses those ten digits to a value `v`
and renders `v % 90000 + 10000`, a number between 10000 and 99999, as a
five-character decimal string; it is a pure function of its argument and
is not injective: two distinct UUIDs share the short id. -/
theorem generateShortId_spec (u : JsStr)
    (hne : ¬ u.filter (fun c => decide (¬ c = '-')) = [])
    (hhex : ∀ c ∈ (u.filter (fun c => decide (¬ c = '-'))).take 10,
        isHexDigitJs c) :
    (∃ v, parseIntHex ((u.filter (fun c => decide (¬ c = '-'))).take 10)
          = some v
        ∧ generateShortId u = natToDec (v % 90000 + 10000)
        ∧ 10000 ≤ v % 90000 + 10000 ∧ v % 90000 + 10000 ≤ 99999)
    ∧ (generateShortId u).length = 5
    ∧ ¬ js "00000000-0000-4000-8000-000000000000"
        = js "00015f90-0000-4000-8000-000000000000"
    ∧ generateShortId (js "00000000-0000-4000-8000-000000000000")
        = generateShortId (js "00015f90-0000-4000-8000-000000000000") := by
  rcases hcl : u.filter (fun c => decide (¬ c = '-')) with _ | ⟨a, t⟩
  · exact absurd hcl hne
  · rw [hcl] at hhex
    have htake : (a :: t).take 10 = a :: t.take 9 := rfl
    rw [htake] at hhex
    have htw : (a :: t.take 9).takeWhile isHexDigitJs = a :: t.take 9 :=
      takeWhile_all _ _ hhex
    have hparse : parseIntHex ((a :: t).take 10)
        = some ((a :: t.take 9).foldl
            (fun acc c => 16 * acc + hexValJs c) 0) := by
      rw [parseIntHex, htake, htw]
    have hgen : generateShortId u
        = natToDec ((a :: t.take 9).foldl
              (fun acc c => 16 * acc + hexValJs c) 0 % 90000 + 10000) := by
      rw [generateShortId, hcl, hparse]
    refine ⟨⟨_, hparse, hgen, by omega, by omega⟩,
      ?_, by decide, by decide⟩
    rw [hgen]
    exact natToDec_length5 _ (by omega) (by omega)

/-- C9 witness: the theorem applied to a concrete UUID, both hypotheses
discharged by evaluation. -/
theorem generateShortId_spec_witness :
    (generateShortId (js "123e4567-e89b-12d3-a456-426614174000")).length
      = 5 :=
  (generateShortId_spec (js "123e4567-e89b-12d3-a456-426614174000")
      (by decide) (by decide)).2.1

/-- C8 witness: the amended theorem applied at a concrete store and
argument, the equivalence discharged on an exported record. -/
theorem exportByEmail_spec_witness :
    exportRecordOf (sampleSub (js "4") (js "B@y.com"))
      ∈ exportByEmail (js "b@y.com")
          [sampleSub (js "4") (js "B@y.com")] :=
  ((exportByEmail_spec (js "b@y.com")
      [sampleSub (js "4") (js "B@y.com")]).1
    (exportRecordOf (sampleSub (js "4") (js "B@y.com")))).mpr
    ⟨sampleSub (js "4") (js "B@y.com"), by simp, by decide, rfl⟩

/-- A concrete validator-library instance used by witnesses. -/
def sampleValidator : ValidatorModel :=
  { isEmail := fun e => e.contains '@'
    isURL := fun _ => true
    isDate := fun _ => true
    normalizeEmail := fun e => some (jsTrim (jsToLower e)) }

/-- A concrete, fully valid request body used by witnesses. -/
def sampleBody : ContactBody :=
  { name := some (js "Max")
    company := some (js "ACME")
    email := some (js "Max@X.com")
    interests := some [js "renderings"]
    interestOther := none
    website := none
    budget := none
    deadline := none
    message := some (js "Hallo")
    consent := some true }

/-- C6: a request whose body lacks the email field, or carries an empty
one, is answered with HTTP 400 and leaves the submission store exactly as
it was. -/
theorem postContact_missing_email (vm : ValidatorModel)
    (retentionDays now : Int) (id ipHash : JsStr) (b : ContactBody)
    (store : List Submission)
    (h : b.email = none ∨ b.email = some []) :
    postContact vm retentionDays now id ipHash b store = (400, store) := by
  have hm : js "E-Mail-Adresse ist erforderlich" ∈ contactErrors vm b := by
    rcases h with h | h <;> simp [contactErrors, h]
  simp only [postContact]
  rw [if_pos (List.ne_nil_of_mem hm)]

/-- C6 witness: the theorem applied to an otherwise valid body with the
email field absent. -/
theorem postContact_missing_email_witness :
    postContact sampleValidator 180 0 (js "1") (js "hash")
        { sampleBody with email := none } [] = (400, []) :=
  postContact_missing_email sampleValidator 180 0 (js "1") (js "hash")
    { sampleBody with email := none } [] (Or.inl rfl)

/-- The invariant C10 claims of every stored submission: consent is
literally `true`, the interests are a nonempty selection from
`ALLOWED_INTERESTS`, and company, email and message are nonempty. -/
def GoodSubmission (s : Submission) : Prop :=
  s.consent = true
  ∧ ¬ s.interests = []
  ∧ (∀ i ∈ s.interests, i ∈ ALLOWED_INTERESTS)
  ∧ ¬ s.company = [] ∧ ¬ s.email = [] ∧ ¬ s.message = []

/-- When validation passes, the sanitized submission satisfies the
invariant. -/
theorem good_of_no_errors (vm : ValidatorModel) (now : Int)
    (ipHash : JsStr) (b : ContactBody)
    (he : contactErrors vm b = []) (retentionDays : Int) (id : JsStr) :
    GoodSubmission
      (mkSubmission retentionDays now id (mkSanitizedData vm now ipHash b)) := by
  unfold contactErrors at he
  obtain ⟨he, h8⟩ := List.append_eq_nil.mp he
  obtain ⟨he, h7⟩ := List.append_eq_nil.mp he
  obtain ⟨he, h6⟩ := List.append_eq_nil.mp he
  obtain ⟨he, h5⟩ := List.append_eq_nil.mp he
  obtain ⟨he, h4⟩ := List.append_eq_nil.mp he
  obtain ⟨he, h3⟩ := List.append_eq_nil.mp he
  obtain ⟨h1, h2⟩ := List.append_eq_nil.mp he
  obtain ⟨c, hbc, hc⟩ : ∃ c, b.company = some c ∧ ¬ jsTrim c = [] := by
    rcases hbc : b.company with _ | c
    · rw [hbc] at h1
      simp [isBlankOpt] at h1
    · rw [hbc] at h1
      refine ⟨c, rfl, ?_⟩
      intro hx
      simp [isBlankOpt, hx] at h1
  obtain ⟨e, hbe, he1, he2⟩ :
      ∃ e, b.email = some e ∧ ¬ e = [] ∧ ¬ jsTrim e = [] := by
    rcases hbe : b.email with _ | e
    · rw [hbe] at h2
      simp at h2
    · rw [hbe] at h2
      refine ⟨e, rfl, ?_, ?_⟩ <;> intro hx <;> simp [hx] at h2
  obtain ⟨l, hbi, hl1, hl2⟩ :
      ∃ l, b.interests = some l ∧ ¬ l = []
        ∧ ∀ i ∈ l, i ∈ ALLOWED_INTERESTS := by
    rcases hbi : b.interests with _ | l
    · rw [hbi] at h3
      simp at h3
    · rw [hbi] at h3
      have hl1 : ¬ l = [] := by
        intro hx
        simp [hx] at h3
      refine ⟨l, rfl, hl1, ?_⟩
      intro i hi
      by_contra hni
      have hany : l.any (fun i => decide (¬ i ∈ ALLOWED_INTERESTS)) = true := by
        simp only [List.any_eq_true, decide_eq_true_eq]
        exact ⟨i, hi, hni⟩
      simp [hl1, hany] at h3
      exact hni (h3 i hi)
  obtain ⟨msg, hbm, hmsg⟩ : ∃ m, b.message = some m ∧ ¬ jsTrim m = [] := by
    rcases hbm : b.message with _ | msg
    · rw [hbm] at h4
      simp [isBlankOpt] at h4
    · rw [hbm] at h4
      refine ⟨msg, rfl, ?_⟩
      intro hx
      simp [isBlankOpt, hx] at h4
  have hfilter : l.filter (fun i => decide (i ∈ ALLOWED_INTERESTS)) = l :=
    List.filter_eq_self.mpr fun i hi => by
      simpa using hl2 i hi
  refine ⟨rfl, ?_, ?_, ?_, ?_, ?_⟩
  · show ¬ (b.interests.getD []).filter _ = []
    rw [hbi]
    show ¬ l.filter _ = []
    rw [hfilter]
    exact hl1
  · show ∀ i ∈ (b.interests.getD []).filter _, _
    rw [hbi]
    intro i hi
    exact hl2 i (List.mem_of_mem_filter hi)
  · show ¬ sanitizeString (b.company.getD []) = []
    rw [hbc]
    exact escapeHtml_ne_nil _ hc
  · show ¬ (match vm.normalizeEmail (b.email.getD []) with
      | some n => if n = [] then jsTrim (jsToLower (b.email.getD [])) else n
      | none => jsTrim (jsToLower (b.email.getD []))) = []
    rw [hbe]
    simp only [Option.getD_some]
    rcases hn : vm.normalizeEmail e with _ | n
    · exact jsTrim_jsToLower_ne_nil e he2
    · show ¬ (if n = [] then jsTrim (jsToLower e) else n) = []
      by_cases hn0 : n = []
      · rw [if_pos hn0]
        exact jsTrim_jsToLower_ne_nil e he2
      · rw [if_neg hn0]
        exact hn0
  · show ¬ sanitizeString (b.message.getD []) = []
    rw [hbm]
    exact escapeHtml_ne_nil _ hmsg

/-- C10: every submission in the store after a `POST /api/contact` request
was either already stored or satisfies the validation invariant: consent
is `true`, the interests are a nonempty selection from the five allowed
values, and company, email and message are nonempty. -/
theorem postContact_stores_valid (vm : ValidatorModel)
    (retentionDays now : Int) (id ipHash : JsStr) (b : ContactBody)
    (store : List Submission) :
    ∀ s ∈ (postContact vm retentionDays now id ipHash b store).2,
      s ∈ store ∨ GoodSubmission s := by
  intro s hs
  by_cases he : contactErrors vm b = []
  · simp only [postContact] at hs
    rw [if_neg (not_not_intro he)] at hs
    simp only [saveSubmission, List.mem_append, List.mem_singleton] at hs
    rcases hs with hs | rfl
    · exact Or.inl hs
    · exact Or.inr (good_of_no_errors vm now ipHash b he retentionDays id)
  · simp only [postContact] at hs
    rw [if_pos he] at hs
    exact Or.inl hs

/-- C10 witness: the theorem applied to a concrete valid request against
the empty store, the membership hypothesis discharged on the submission
the handler stored. -/
theorem postContact_stores_valid_witness :
    mkSubmission 180 0 (js "1")
        (mkSanitizedData sampleValidator 0 (js "hash") sampleBody)
      ∈ ([] : List Submission)
    ∨ GoodSubmission
        (mkSubmission 180 0 (js "1")
          (mkSanitizedData sampleValidator 0 (js "hash") sampleBody)) :=
  postContact_stores_valid sampleValidator 180 0 (js "1") (js "hash")
    sampleBody []
    (mkSubmission 180 0 (js "1")
      (mkSanitizedData sampleValidator 0 (js "hash") sampleBody))
    (by decide)
